import Mathlib

/-!
Shallow embedding of the trading ledger of the stock-portfolio Flask app
(src/CodeAlpha_Stock-portfolio/aap.py).

Monetary amounts and prices are SQLite REAL / Python float values; they are
embedded as exact rationals (ℚ). Quantities are Python ints (ℤ). The per-user
database state (wallet row, portfolio rows, transaction rows) is embedded as
an `AccountState` record; each Flask route that mutates it becomes a function
from the old state to the new state paired with an optional error, where an
error corresponds to the route flashing an error message and returning before
committing any write.

The live price source (yfinance) is an external collaborator; it is embedded
as a parameter `oracle : String → Option ℚ`, where `none` covers both an
exception and an empty / missing history (the code treats all of these alike
by falling through to the static fallback table).
-/

namespace StockPortfolio

/-- kinds of rows in the transactions table: the `type` column is one of
"deposit", "buy", "sell". -/
inductive TxKind
  | deposit
  | buy
  | sell
deriving Repr, DecidableEq

/-- row of the transactions table (timestamp omitted; rows are kept in
insertion order in a list). `symbol`/`qty` are NULL for deposits, and the
code stores the deposited amount in the `price` column. -/
structure TxRecord where
  kind : TxKind
  symbol : Option String
  qty : Option ℤ
  price : Option ℚ
deriving Repr, DecidableEq

/-- row of the portfolio table for one (user, symbol): `qty` and `avg_price`
columns. -/
structure Position where
  qty : ℤ
  avg_price : ℚ
deriving Repr, DecidableEq

/-- the portfolio table restricted to one user: association list keyed by
symbol (the table has UNIQUE(user_id, symbol)). -/
abbrev Positions := List (String × Position)

/-- per-user database state: wallet balance, portfolio rows, transaction
rows in insertion order. -/
structure AccountState where
  balance : ℚ
  positions : Positions
  log : List TxRecord
deriving Repr, DecidableEq

/-- errors a mutating route can flash before returning without a commit. -/
inductive TradeError
  | InvalidAmount
  | InvalidQuantity
  | InsufficientFunds
  | InsufficientShares
  | NoSuchPosition
deriving Repr, DecidableEq

/-- SELECT qty, avg_price FROM portfolio WHERE user_id = ? AND symbol = ?. -/
def lookupPos (ps : Positions) (sym : String) : Option Position :=
  (ps.find? (fun p => p.1 == sym)).map Prod.snd

/-- UPDATE portfolio SET ... WHERE user_id = ? AND symbol = ?. -/
def updatePos (ps : Positions) (sym : String) (pos : Position) : Positions :=
  ps.map (fun p => if p.1 == sym then (p.1, pos) else p)

/-- DELETE FROM portfolio WHERE user_id = ? AND symbol = ?. -/
def deletePos (ps : Positions) (sym : String) : Positions :=
  ps.filter (fun p => !(p.1 == sym))

/-- FALLBACK_PRICES static table (aap.py line 101). -/
def FALLBACK_PRICES : List (String × ℚ) :=
  [("AAPL", 180), ("TSLA", 250), ("GOOGL", 140), ("AMZN", 155),
   ("MSFT", 320), ("META", 220)]

/-- FALLBACK_PRICES.get(symbol): `none` when the symbol has no entry. -/
def lookupFallback (sym : String) : Option ℚ :=
  (FALLBACK_PRICES.find? (fun p => p.1 == sym)).map Prod.snd

/-- float(FALLBACK_PRICES.get(symbol, 0.0)): table value, defaulting to 0. -/
def fallbackPrice (sym : String) : ℚ :=
  (lookupFallback sym).getD 0

/-- drops leading whitespace characters from a character list (one side of
Python str.strip). -/
def dropLeadingWs : List Char → List Char
  | [] => []
  | c :: cs => if c.isWhitespace then dropLeadingWs cs else c :: cs

/-- symbol.strip().upper() (aap.py lines 105, 239, 282, 394): strip
whitespace from both ends, then uppercase every character. -/
def normalizeSymbol (s : String) : String :=
  ⟨((dropLeadingWs ((dropLeadingWs s.data).reverse)).reverse).map Char.toUpper⟩

/-- get_live_price (aap.py lines 103-118): normalize the symbol, ask the
oracle (yfinance), and on failure or missing data fall back to the static
table, defaulting to 0 for unknown symbols. -/
def get_live_price (oracle : String → Option ℚ) (symbol : String) : ℚ :=
  let sym := normalizeSymbol symbol
  match oracle sym with
  | some p => p
  | none => fallbackPrice sym

/-- tolerance in the buy sufficiency check: the literal 1e-9 on
aap.py line 250. -/
def eps : ℚ := 1 / 1000000000

/-- price used by buy (aap.py line 246): get_live_price for source
"auto"/"live", otherwise the fallback table value directly. -/
def resolvePrice (oracle : String → Option ℚ) (sym source : String) : ℚ :=
  if source == "auto" || source == "live" then get_live_price oracle sym
  else fallbackPrice sym

/-- the buy route (aap.py lines 236-276). Normalizes the symbol, validates
the quantity, resolves the price, checks `cost > balance + 1e-9`, and on
success deducts the cost, upserts the portfolio row with the re-averaged
price, and appends the transaction row, all in one commit. An error returns
the input state untouched. -/
def buy (oracle : String → Option ℚ) (st : AccountState) (symbol : String)
    (qty : ℤ) (source : String) : AccountState × Option TradeError :=
  let sym := normalizeSymbol symbol
  if qty ≤ 0 then (st, some TradeError.InvalidQuantity)
  else
    let price := resolvePrice oracle sym source
    let cost := price * (qty : ℚ)
    if st.balance + eps < cost then (st, some TradeError.InsufficientFunds)
    else
      let newPositions :=
        match lookupPos st.positions sym with
        | some pos =>
            updatePos st.positions sym
              { qty := pos.qty + qty,
                avg_price :=
                  ((pos.qty : ℚ) * pos.avg_price + (qty : ℚ) * price) /
                    ((pos.qty + qty : ℤ) : ℚ) }
        | none => st.positions ++ [(sym, { qty := qty, avg_price := price })]
      ({ balance := st.balance - cost,
         positions := newPositions,
         log := st.log ++
           [{ kind := TxKind.buy, symbol := some sym, qty := some qty,
              price := some price }] },
       none)

/-- the sell route (aap.py lines 279-312). Normalizes the symbol, validates
the quantity, requires an existing position with enough shares, and on
success credits the proceeds, reduces or deletes the position (avg_price
untouched on the reduce path), and appends the transaction row, all in one
commit. An error returns the input state untouched. -/
def sell (oracle : String → Option ℚ) (st : AccountState) (symbol : String)
    (qty : ℤ) : AccountState × Option TradeError :=
  let sym := normalizeSymbol symbol
  if qty ≤ 0 then (st, some TradeError.InvalidQuantity)
  else
    match lookupPos st.positions sym with
    | none => (st, some TradeError.NoSuchPosition)
    | some pos =>
      if pos.qty < qty then (st, some TradeError.InsufficientShares)
      else
        let price := get_live_price oracle sym
        let proceeds := price * (qty : ℚ)
        let remaining := pos.qty - qty
        let newPositions :=
          if remaining = 0 then deletePos st.positions sym
          else updatePos st.positions sym
            { qty := remaining, avg_price := pos.avg_price }
        ({ balance := st.balance + proceeds,
           positions := newPositions,
           log := st.log ++
             [{ kind := TxKind.sell, symbol := some sym, qty := some qty,
                price := some price }] },
         none)

/-- the wallet_add route (aap.py lines 217-233): requires a positive amount,
credits it, then record_transaction appends a deposit row (amount stored in
the price column). -/
def deposit (st : AccountState) (amount : ℚ) :
    AccountState × Option TradeError :=
  if amount ≤ 0 then (st, some TradeError.InvalidAmount)
  else
    ({ balance := st.balance + amount,
       positions := st.positions,
       log := st.log ++
         [{ kind := TxKind.deposit, symbol := none, qty := none,
            price := some amount }] },
     none)

/-- per-position value on the portfolio page: price * qty (aap.py 329). -/
def position_value (price : ℚ) (qty : ℤ) : ℚ := price * (qty : ℚ)

/-- per-position cost basis on the portfolio page: avg * qty (aap.py 330). -/
def position_cost (avg : ℚ) (qty : ℤ) : ℚ := avg * (qty : ℚ)

/-- profit/loss shown on the portfolio page: value - cost (aap.py 331). -/
def portfolio_pl (price avg : ℚ) (qty : ℤ) : ℚ :=
  position_value price qty - position_cost avg qty

/-- profit/loss computed by /api/profit-data: (price - avg) * qty
(aap.py 385). -/
def api_pl (price avg : ℚ) (qty : ℤ) : ℚ :=
  (price - avg) * (qty : ℚ)

/-- one user-visible ledger operation, for stating invariants over
sequences of committed operations. -/
inductive Op
  | deposit (amount : ℚ)
  | buy (symbol : String) (qty : ℤ) (source : String)
  | sell (symbol : String) (qty : ℤ)
deriving Repr

/-- applies one operation, keeping the (unchanged) state when the route
rejects it. -/
def applyOp (oracle : String → Option ℚ) (st : AccountState) :
    Op → AccountState
  | Op.deposit amount => (deposit st amount).1
  | Op.buy symbol qty source => (buy oracle st symbol qty source).1
  | Op.sell symbol qty => (sell oracle st symbol qty).1

/-- runs a sequence of operations left to right. -/
def run (oracle : String → Option ℚ) (st : AccountState) :
    List Op → AccountState
  | [] => st
  | op :: ops => run oracle (applyOp oracle st op) ops

/-! Execution lemmas: how each route evaluates on each of its paths.
These are proved once from the definitions and reused by the claim
theorems below. -/

theorem buy_insufficient (oracle : String → Option ℚ) (st : AccountState)
    (symbol source : String) (qty : ℤ) (hq : 0 < qty)
    (h : st.balance + eps <
      resolvePrice oracle (normalizeSymbol symbol) source * (qty : ℚ)) :
    buy oracle st symbol qty source = (st, some TradeError.InsufficientFunds) := by
  simp only [buy]
  rw [if_neg (not_le.mpr hq), if_pos h]

theorem buy_ok_new (oracle : String → Option ℚ) (st : AccountState)
    (symbol source : String) (qty : ℤ) (hq : 0 < qty)
    (hpos : lookupPos st.positions (normalizeSymbol symbol) = none)
    (h : ¬ st.balance + eps <
      resolvePrice oracle (normalizeSymbol symbol) source * (qty : ℚ)) :
    buy oracle st symbol qty source =
      ({ balance := st.balance -
           resolvePrice oracle (normalizeSymbol symbol) source * (qty : ℚ),
         positions := st.positions ++
           [(normalizeSymbol symbol,
             { qty := qty,
               avg_price := resolvePrice oracle (normalizeSymbol symbol) source })],
         log := st.log ++
           [{ kind := TxKind.buy, symbol := some (normalizeSymbol symbol),
              qty := some qty,
              price := some (resolvePrice oracle (normalizeSymbol symbol) source) }] },
       none) := by
  simp only [buy]
  rw [if_neg (not_le.mpr hq), if_neg h, hpos]

theorem buy_ok_existing (oracle : String → Option ℚ) (st : AccountState)
    (symbol source : String) (qty : ℤ) (pos : Position) (hq : 0 < qty)
    (hpos : lookupPos st.positions (normalizeSymbol symbol) = some pos)
    (h : ¬ st.balance + eps <
      resolvePrice oracle (normalizeSymbol symbol) source * (qty : ℚ)) :
    buy oracle st symbol qty source =
      ({ balance := st.balance -
           resolvePrice oracle (normalizeSymbol symbol) source * (qty : ℚ),
         positions := updatePos st.positions (normalizeSymbol symbol)
           { qty := pos.qty + qty,
             avg_price :=
               ((pos.qty : ℚ) * pos.avg_price +
                  (qty : ℚ) * resolvePrice oracle (normalizeSymbol symbol) source) /
                 ((pos.qty + qty : ℤ) : ℚ) },
         log := st.log ++
           [{ kind := TxKind.buy, symbol := some (normalizeSymbol symbol),
              qty := some qty,
              price := some (resolvePrice oracle (normalizeSymbol symbol) source) }] },
       none) := by
  simp only [buy]
  rw [if_neg (not_le.mpr hq), if_neg h, hpos]

theorem sell_no_position (oracle : String → Option ℚ) (st : AccountState)
    (symbol : String) (qty : ℤ) (hq : 0 < qty)
    (hpos : lookupPos st.positions (normalizeSymbol symbol) = none) :
    sell oracle st symbol qty = (st, some TradeError.NoSuchPosition) := by
  simp only [sell]
  rw [if_neg (not_le.mpr hq), hpos]

theorem sell_insufficient_shares (oracle : String → Option ℚ)
    (st : AccountState) (symbol : String) (qty : ℤ) (pos : Position)
    (hq : 0 < qty)
    (hpos : lookupPos st.positions (normalizeSymbol symbol) = some pos)
    (hlt : pos.qty < qty) :
    sell oracle st symbol qty = (st, some TradeError.InsufficientShares) := by
  simp only [sell]
  rw [if_neg (not_le.mpr hq), hpos]
  simp only [if_pos hlt]

theorem sell_ok (oracle : String → Option ℚ) (st : AccountState)
    (symbol : String) (qty : ℤ) (pos : Position) (hq : 0 < qty)
    (hpos : lookupPos st.positions (normalizeSymbol symbol) = some pos)
    (hle : ¬ pos.qty < qty) :
    sell oracle st symbol qty =
      ({ balance := st.balance + get_live_price oracle (normalizeSymbol symbol) * (qty : ℚ),
         positions :=
           if pos.qty - qty = 0 then deletePos st.positions (normalizeSymbol symbol)
           else updatePos st.positions (normalizeSymbol symbol)
             { qty := pos.qty - qty, avg_price := pos.avg_price },
         log := st.log ++
           [{ kind := TxKind.sell, symbol := some (normalizeSymbol symbol),
              qty := some qty,
              price := some (get_live_price oracle (normalizeSymbol symbol)) }] },
       none) := by
  simp only [sell]
  rw [if_neg (not_le.mpr hq), hpos]
  simp only [if_neg hle]

theorem deposit_ok (st : AccountState) (amount : ℚ) (h : 0 < amount) :
    deposit st amount =
      ({ balance := st.balance + amount,
         positions := st.positions,
         log := st.log ++
           [{ kind := TxKind.deposit, symbol := none, qty := none,
              price := some amount }] },
       none) := by
  simp only [deposit]
  rw [if_neg (not_le.mpr h)]

theorem lookupPos_deletePos (ps : Positions) (k : String) :
    lookupPos (deletePos ps k) k = none := by
  simp [deletePos, lookupPos, List.find?_eq_none, List.mem_filter]

theorem lookupPos_updatePos (ps : Positions) (k : String) (v pos : Position)
    (h : lookupPos ps k = some pos) :
    lookupPos (updatePos ps k v) k = some v := by
  induction ps with
  | nil => simp [lookupPos] at h
  | cons p ps ih =>
    by_cases hk : p.1 = k
    · simp [updatePos, lookupPos, List.find?_cons, hk]
    · have hb : (p.1 == k) = false := beq_eq_false_iff_ne.mpr hk
      simp only [lookupPos, List.find?_cons, hb] at h ⊢
      simp only [updatePos, List.map_cons, hb, Bool.false_eq_true, if_false]
      simp only [List.find?_cons, hb]
      simp only [lookupPos, updatePos] at ih
      exact ih h

theorem lookupPos_nil (k : String) : lookupPos [] k = none := rfl

theorem lookupPos_single (k : String) (pos : Position) :
    lookupPos [(k, pos)] k = some pos := by
  simp [lookupPos, List.find?_cons]

theorem get_live_price_const (p : ℚ) (sym : String) :
    get_live_price (fun _ => some p) sym = p := rfl

theorem resolvePrice_auto_const (p : ℚ) (sym : String) :
    resolvePrice (fun _ => some p) sym "auto" = p := rfl

/-! Nonnegativity of resolved prices, assuming the oracle only reports
nonnegative prices (the fallback table is nonnegative by inspection). -/

theorem fallbackPrice_nonneg (sym : String) : 0 ≤ fallbackPrice sym := by
  unfold fallbackPrice lookupFallback
  cases hfind : FALLBACK_PRICES.find? (fun p => p.1 == sym) with
  | none => simp
  | some p =>
    have hmem : p ∈ FALLBACK_PRICES := List.mem_of_find?_eq_some hfind
    have hp : 0 ≤ p.2 := by
      simp only [FALLBACK_PRICES, List.mem_cons, List.not_mem_nil, or_false] at hmem
      rcases hmem with h | h | h | h | h | h <;> rw [h] <;> norm_num
    simpa using hp

theorem get_live_price_nonneg (oracle : String → Option ℚ)
    (hor : ∀ s p, oracle s = some p → 0 ≤ p) (sym : String) :
    0 ≤ get_live_price oracle sym := by
  unfold get_live_price
  cases h : oracle (normalizeSymbol sym) with
  | some p => simpa [h] using hor _ p h
  | none => simpa [h] using fallbackPrice_nonneg (normalizeSymbol sym)

/-! Lower bound on the balance after each route: a committed buy can push
the balance below zero, but never below -eps; deposits and sells (with a
nonnegative price) only increase it. -/

theorem buy_balance_lb (oracle : String → Option ℚ) (st : AccountState)
    (symbol source : String) (qty : ℤ) (hb : -eps ≤ st.balance) :
    -eps ≤ (buy oracle st symbol qty source).1.balance := by
  simp only [buy]
  split_ifs with h1 h2
  · exact hb
  · exact hb
  · push_neg at h2
    dsimp only
    linarith

theorem deposit_balance_lb (st : AccountState) (amount : ℚ)
    (hb : -eps ≤ st.balance) :
    -eps ≤ (deposit st amount).1.balance := by
  simp only [deposit]
  split_ifs with h1
  · exact hb
  · push_neg at h1
    dsimp only
    linarith

theorem sell_balance_lb (oracle : String → Option ℚ)
    (hor : ∀ s p, oracle s = some p → 0 ≤ p) (st : AccountState)
    (symbol : String) (qty : ℤ) (hb : -eps ≤ st.balance) :
    -eps ≤ (sell oracle st symbol qty).1.balance := by
  simp only [sell]
  split_ifs with h1
  · exact hb
  · cases hpos : lookupPos st.positions (normalizeSymbol symbol) with
    | none => simpa using hb
    | some pos =>
      simp only
      split_ifs with h2 h3
      · exact hb
      all_goals
        dsimp only
        push_neg at h1
        have hq : (0 : ℚ) ≤ (qty : ℚ) := by exact_mod_cast le_of_lt h1
        have hp : 0 ≤ get_live_price oracle (normalizeSymbol symbol) :=
          get_live_price_nonneg oracle hor (normalizeSymbol symbol)
        nlinarith

theorem applyOp_balance_lb (oracle : String → Option ℚ)
    (hor : ∀ s p, oracle s = some p → 0 ≤ p) (st : AccountState) (op : Op)
    (hb : -eps ≤ st.balance) :
    -eps ≤ (applyOp oracle st op).balance := by
  cases op with
  | deposit amount => exact deposit_balance_lb st amount hb
  | buy symbol qty source => exact buy_balance_lb oracle st symbol source qty hb
  | sell symbol qty => exact sell_balance_lb oracle hor st symbol qty hb

theorem run_balance_lb (oracle : String → Option ℚ)
    (hor : ∀ s p, oracle s = some p → 0 ≤ p) (st : AccountState)
    (ops : List Op) (hb : -eps ≤ st.balance) :
    -eps ≤ (run oracle st ops).balance := by
  induction ops generalizing st with
  | nil => exact hb
  | cons op ops ih =>
    exact ih (applyOp oracle st op) (applyOp_balance_lb oracle hor st op hb)

/-! Model of the SQL statements and commits issued by the buy and deposit
routes, for the transactionality claim. [DbWrite] is a write statement on
one of the three tables; a trace interleaves writes with
[sqlite3.Connection.commit] calls. -/

/-- one SQL write statement, by target table. -/
inductive DbWrite
  | updateWallet
  | upsertPortfolio
  | insertTransaction
deriving Repr, DecidableEq

/-- one event on a database connection: a write or a commit. Closing a
connection without committing rolls pending writes back. -/
inductive DbEvent
  | write (w : DbWrite)
  | commit
deriving Repr, DecidableEq

/-- statements issued by the buy success path (aap.py lines 253-274): one
connection runs the wallet UPDATE, the portfolio INSERT-or-UPDATE and the
transactions INSERT, then commits once. -/
def buyTrace : List DbEvent :=
  [DbEvent.write DbWrite.updateWallet, DbEvent.write DbWrite.upsertPortfolio,
   DbEvent.write DbWrite.insertTransaction, DbEvent.commit]

/-- statements issued by the wallet_add success path (aap.py lines 226-231):
the wallet UPDATE is committed on one connection, then record_transaction
opens a second connection and commits the transactions INSERT separately. -/
def depositTrace : List DbEvent :=
  [DbEvent.write DbWrite.updateWallet, DbEvent.commit,
   DbEvent.write DbWrite.insertTransaction, DbEvent.commit]

/-- groups a trace into its committed units: each commit makes the writes
since the previous commit durable together; writes never followed by a
commit are rolled back and dropped. -/
def commitGroupsAux : List DbEvent → List DbWrite → List (List DbWrite)
  | [], _ => []
  | DbEvent.commit :: rest, acc => acc :: commitGroupsAux rest []
  | DbEvent.write w :: rest, acc => commitGroupsAux rest (acc ++ [w])

/-- committed units of a trace, in order. -/
def commitGroups (t : List DbEvent) : List (List DbWrite) :=
  commitGroupsAux t []

/-- C4: selling exactly the held quantity Q of a symbol deletes the
position: after the sell, the account holds no position for that symbol. -/
theorem C4_sell_all_deletes_position (oracle : String → Option ℚ)
    (st : AccountState) (symbol : String) (pos : Position)
    (hpos : lookupPos st.positions (normalizeSymbol symbol) = some pos)
    (hq : 0 < pos.qty) :
    lookupPos ((sell oracle st symbol pos.qty).1).positions
      (normalizeSymbol symbol) = none := by
  rw [sell_ok oracle st symbol pos.qty pos hq hpos (lt_irrefl pos.qty)]
  simp [lookupPos_deletePos]

theorem C4_witness :
    lookupPos
      ((sell (fun _ => some 5)
        { balance := 1000, positions := [("AAPL", { qty := 2, avg_price := 180 })],
          log := [] } "AAPL" 2).1).positions (normalizeSymbol "AAPL") = none :=
  C4_sell_all_deletes_position (fun _ => some 5)
    { balance := 1000, positions := [("AAPL", { qty := 2, avg_price := 180 })],
      log := [] } "AAPL" { qty := 2, avg_price := 180 } rfl (by decide)

/-- C5: a partial sell (quantity strictly below the held quantity) leaves
the avg_price of the position unchanged and only reduces its quantity. -/
theorem C5_partial_sell_keeps_avg_cost (oracle : String → Option ℚ)
    (st : AccountState) (symbol : String) (pos : Position) (qty : ℤ)
    (hpos : lookupPos st.positions (normalizeSymbol symbol) = some pos)
    (hq : 0 < qty) (hlt : qty < pos.qty) :
    lookupPos ((sell oracle st symbol qty).1).positions
      (normalizeSymbol symbol) =
      some { qty := pos.qty - qty, avg_price := pos.avg_price } := by
  rw [sell_ok oracle st symbol qty pos hq hpos (not_lt.mpr (le_of_lt hlt))]
  have hne : ¬ (pos.qty - qty = 0) := sub_ne_zero.mpr (ne_of_gt hlt)
  simp only [if_neg hne]
  exact lookupPos_updatePos st.positions (normalizeSymbol symbol) _ pos hpos

theorem C5_witness :
    lookupPos
      ((sell (fun _ => some 5)
        { balance := 1000, positions := [("AAPL", { qty := 5, avg_price := 180 })],
          log := [] } "AAPL" 2).1).positions (normalizeSymbol "AAPL") =
      some { qty := (5 : ℤ) - 2, avg_price := 180 } :=
  C5_partial_sell_keeps_avg_cost (fun _ => some 5)
    { balance := 1000, positions := [("AAPL", { qty := 5, avg_price := 180 })],
      log := [] } "AAPL" { qty := 5, avg_price := 180 } 2 rfl (by decide) (by decide)

/-- C6: sell fails with NoSuchPosition when the account holds no position in
the symbol, and with InsufficientShares when the quantity exceeds the held
quantity; in both cases the returned state is the unchanged input state
(balance, positions and transaction log untouched). -/
theorem C6_sell_error_paths (oracle : String → Option ℚ) (st : AccountState)
    (symbol : String) (qty : ℤ) (hq : 0 < qty) :
    (lookupPos st.positions (normalizeSymbol symbol) = none →
      sell oracle st symbol qty = (st, some TradeError.NoSuchPosition)) ∧
    (∀ pos, lookupPos st.positions (normalizeSymbol symbol) = some pos →
      pos.qty < qty →
      sell oracle st symbol qty = (st, some TradeError.InsufficientShares)) := by
  constructor
  · intro hpos
    exact sell_no_position oracle st symbol qty hq hpos
  · intro pos hpos hlt
    exact sell_insufficient_shares oracle st symbol qty pos hq hpos hlt

theorem C6_witness :
    sell (fun _ => some 5) { balance := 100, positions := [], log := [] }
      "TSLA" 1 =
      ({ balance := 100, positions := [], log := [] },
       some TradeError.NoSuchPosition) ∧
    sell (fun _ => some 5)
      { balance := 100, positions := [("AAPL", { qty := 2, avg_price := 180 })],
        log := [] } "AAPL" 3 =
      ({ balance := 100, positions := [("AAPL", { qty := 2, avg_price := 180 })],
         log := [] },
       some TradeError.InsufficientShares) :=
  ⟨(C6_sell_error_paths (fun _ => some 5)
      { balance := 100, positions := [], log := [] } "TSLA" 1 (by decide)).1 rfl,
   (C6_sell_error_paths (fun _ => some 5)
      { balance := 100, positions := [("AAPL", { qty := 2, avg_price := 180 })],
        log := [] } "AAPL" 3 (by decide)).2
     { qty := 2, avg_price := 180 } rfl (by decide)⟩

/-- C7: when the oracle fails or returns no data for the (normalized)
symbol, get_live_price resolves to the static fallback table value, and
when the symbol is also unknown to the fallback table it resolves to 0 (a
value, not a hard failure). -/
theorem C7_oracle_fallback (oracle : String → Option ℚ) (symbol : String)
    (hfail : oracle (normalizeSymbol symbol) = none) :
    get_live_price oracle symbol = fallbackPrice (normalizeSymbol symbol) ∧
    (lookupFallback (normalizeSymbol symbol) = none →
      get_live_price oracle symbol = 0) := by
  constructor
  · simp [get_live_price, hfail]
  · intro hunknown
    simp [get_live_price, hfail, fallbackPrice, hunknown]

theorem C7_witness :
    get_live_price (fun _ => none) "AAPL" =
      fallbackPrice (normalizeSymbol "AAPL") ∧
    get_live_price (fun _ => none) "ZZZZ" = 0 :=
  ⟨(C7_oracle_fallback (fun _ => none) "AAPL" rfl).1,
   (C7_oracle_fallback (fun _ => none) "ZZZZ" rfl).2 rfl⟩

/-- C8: for any price, average cost and quantity, the profit/loss value of
the portfolio page (value minus cost basis) and of the profit-data API both
equal (price - avgCost) * quantity. -/
theorem C8_pl_identity (price avg : ℚ) (qty : ℤ) :
    portfolio_pl price avg qty = (price - avg) * (qty : ℚ) ∧
    api_pl price avg qty = (price - avg) * (qty : ℚ) := by
  constructor
  · simp only [portfolio_pl, position_value, position_cost]
    ring
  · rfl

/-- C9: the buy success path issues its wallet deduction, portfolio upsert
and transaction insert on one connection with a single commit, so the three
writes form one committed unit (all applied or none); the deposit path
commits its wallet update and its transaction insert as two separate units. -/
theorem C9_buy_single_commit :
    commitGroups buyTrace =
      [[DbWrite.updateWallet, DbWrite.upsertPortfolio,
        DbWrite.insertTransaction]] ∧
    commitGroups depositTrace =
      [[DbWrite.updateWallet], [DbWrite.insertTransaction]] :=
  ⟨rfl, rfl⟩

/-- C10: buy and sell normalize the symbol (strip surrounding whitespace,
uppercase) before any lookup or mutation, so two calls whose symbols agree
after normalization produce identical results on identical states. -/
theorem C10_symbol_normalized (oracle : String → Option ℚ)
    (st : AccountState) (qty : ℤ) (source s1 s2 : String)
    (h : normalizeSymbol s1 = normalizeSymbol s2) :
    buy oracle st s1 qty source = buy oracle st s2 qty source ∧
    sell oracle st s1 qty = sell oracle st s2 qty := by
  constructor
  · simp only [buy, h]
  · simp only [sell, h]

theorem C10_witness :
    buy (fun _ => some 5) { balance := 100, positions := [], log := [] }
      " aapl " 1 "auto" =
      buy (fun _ => some 5) { balance := 100, positions := [], log := [] }
        "AAPL" 1 "auto" ∧
    sell (fun _ => some 5) { balance := 100, positions := [], log := [] }
      " aapl " 1 =
      sell (fun _ => some 5) { balance := 100, positions := [], log := [] }
        "AAPL" 1 :=
  C10_symbol_normalized (fun _ => some 5)
    { balance := 100, positions := [], log := [] } 1 "auto" " aapl " "AAPL"
    (by decide)

/-- C1 (counterexample): a buy whose cost strictly exceeds the balance can
still succeed, because the guard on aap.py line 250 compares against
balance + 1e-9. With balance 100 and resolved price 100 + 1e-10 for one
share, the cost exceeds the balance, yet the buy commits (no error) and the
balance is mutated (it drops below 100, in fact below 0). -/
theorem C1_counterexample :
    (100 : ℚ) <
      resolvePrice (fun _ => some ((100 : ℚ) + 1 / 10000000000))
        (normalizeSymbol "AAPL") "auto" * ((1 : ℤ) : ℚ) ∧
    (buy (fun _ => some ((100 : ℚ) + 1 / 10000000000))
      { balance := 100, positions := [], log := [] } "AAPL" 1 "auto").2 =
      none ∧
    (buy (fun _ => some ((100 : ℚ) + 1 / 10000000000))
      { balance := 100, positions := [], log := [] } "AAPL" 1 "auto").1.balance
      < 100 := by
  have hres : resolvePrice (fun _ => some ((100 : ℚ) + 1 / 10000000000))
      (normalizeSymbol "AAPL") "auto" = 100 + 1 / 10000000000 := rfl
  have hbuy := buy_ok_new (fun _ => some ((100 : ℚ) + 1 / 10000000000))
      { balance := 100, positions := [], log := [] } "AAPL" "auto" 1
      (by decide) rfl
      (by rw [hres]; push_cast; norm_num [eps])
  refine ⟨?_, ?_, ?_⟩
  · rw [hres]; push_cast; norm_num
  · rw [hbuy]
  · rw [hbuy]; dsimp only; rw [hres]; push_cast; norm_num

/-- C1 (amended): the buy insufficiency guard carries a 1e-9 tolerance: buy
fails with InsufficientFunds and returns the state unchanged whenever the
resolved cost exceeds balance + 1e-9 (a cost exceeding the balance by at
most 1e-9 is accepted instead of rejected). -/
theorem C1_insufficient_funds_guard (oracle : String → Option ℚ)
    (st : AccountState) (symbol source : String) (qty : ℤ) (hq : 0 < qty)
    (h : st.balance + eps <
      resolvePrice oracle (normalizeSymbol symbol) source * (qty : ℚ)) :
    buy oracle st symbol qty source =
      (st, some TradeError.InsufficientFunds) :=
  buy_insufficient oracle st symbol source qty hq h

theorem C1_witness :
    buy (fun _ => some 200) { balance := 100, positions := [], log := [] }
      "AAPL" 1 "auto" =
      ({ balance := 100, positions := [], log := [] },
       some TradeError.InsufficientFunds) :=
  C1_insufficient_funds_guard (fun _ => some 200)
    { balance := 100, positions := [], log := [] } "AAPL" "auto" 1 (by decide)
    (by rw [resolvePrice_auto_const]; push_cast; norm_num [eps])

/-- C2 (counterexample): the balance can become negative after a committed
operation: depositing 100 and then buying one share at resolved price
100 + 5e-10 passes the tolerant guard and commits, leaving a negative
balance. -/
theorem C2_counterexample :
    (run (fun _ => some ((100 : ℚ) + 1 / 2000000000))
      { balance := 0, positions := [], log := [] }
      [Op.deposit 100, Op.buy "AAPL" 1 "auto"]).balance < 0 := by
  have hres : resolvePrice (fun _ => some ((100 : ℚ) + 1 / 2000000000))
      (normalizeSymbol "AAPL") "auto" = 100 + 1 / 2000000000 := rfl
  have hdep := deposit_ok { balance := 0, positions := [], log := [] } 100
    (by norm_num)
  simp only [run, applyOp]
  rw [hdep]
  dsimp only
  simp only [List.nil_append]
  have hbuy := buy_ok_new (fun _ => some ((100 : ℚ) + 1 / 2000000000))
      { balance := (0 : ℚ) + 100,
        positions := ([] : Positions),
        log := [{ kind := TxKind.deposit, symbol := none, qty := none,
                  price := some (100 : ℚ) }] } "AAPL" "auto" 1
      (by decide) rfl
      (by rw [hres]; push_cast; norm_num [eps])
  rw [hbuy]
  dsimp only
  rw [hres]
  push_cast
  norm_num

/-- C2 (amended): assuming the oracle reports only nonnegative prices, the
wallet balance stays at or above -1e-9 before and after every committed
operation in any deposit/buy/sell sequence: it can dip below zero, but by
no more than the 1e-9 tolerance of the buy guard. -/
theorem C2_balance_above_neg_eps (oracle : String → Option ℚ)
    (hor : ∀ s p, oracle s = some p → 0 ≤ p) (st : AccountState)
    (hb : -eps ≤ st.balance) (ops : List Op) :
    -eps ≤ (run oracle st ops).balance :=
  run_balance_lb oracle hor st ops hb

theorem C2_witness :
    -eps ≤ (run (fun _ => some 5)
      { balance := 0, positions := [], log := [] }
      [Op.deposit 10, Op.buy "AAPL" 1 "auto", Op.sell "AAPL" 1]).balance :=
  C2_balance_above_neg_eps (fun _ => some 5)
    (fun s p h => by
      have hp : p = 5 := by simpa using h.symm
      rw [hp]; norm_num)
    { balance := 0, positions := [], log := [] }
    (by norm_num [eps])
    [Op.deposit 10, Op.buy "AAPL" 1 "auto", Op.sell "AAPL" 1]

/-- C3: buying q1 shares at resolved price p1 and then q2 shares at
resolved price p2 of the same symbol, with no intervening sell, leaves a
position of quantity q1 + q2 whose avg_price is exactly
(q1*p1 + q2*p2)/(q1 + q2), provided both buys pass the funds guard. -/
theorem C3_weighted_average (b p1 p2 : ℚ) (q1 q2 : ℤ) (sym : String)
    (hq1 : 0 < q1) (hq2 : 0 < q2)
    (h1 : ¬ b + eps < p1 * (q1 : ℚ))
    (h2 : ¬ b - p1 * (q1 : ℚ) + eps < p2 * (q2 : ℚ)) :
    lookupPos
      ((buy (fun _ => some p2)
          ((buy (fun _ => some p1)
              { balance := b, positions := [], log := [] } sym q1 "auto").1)
          sym q2 "auto").1).positions (normalizeSymbol sym) =
      some { qty := q1 + q2,
             avg_price :=
               ((q1 : ℚ) * p1 + (q2 : ℚ) * p2) / ((q1 : ℚ) + (q2 : ℚ)) } := by
  have hres1 : resolvePrice (fun _ => some p1) (normalizeSymbol sym) "auto"
      = p1 := rfl
  have hres2 : resolvePrice (fun _ => some p2) (normalizeSymbol sym) "auto"
      = p2 := rfl
  have e1 := buy_ok_new (fun _ => some p1)
      { balance := b, positions := [], log := [] } sym "auto" q1 hq1 rfl
      (by rw [hres1]; exact h1)
  rw [e1]
  dsimp only
  rw [hres1]
  simp only [List.nil_append]
  have e2 := buy_ok_existing (fun _ => some p2)
      { balance := b - p1 * (q1 : ℚ),
        positions := [(normalizeSymbol sym, { qty := q1, avg_price := p1 })],
        log := [{ kind := TxKind.buy, symbol := some (normalizeSymbol sym),
                  qty := some q1, price := some p1 }] }
      sym "auto" q2 { qty := q1, avg_price := p1 } hq2
      (lookupPos_single (normalizeSymbol sym) { qty := q1, avg_price := p1 })
      (by rw [hres2]; exact h2)
  rw [e2]
  dsimp only
  rw [hres2]
  rw [lookupPos_updatePos _ _ _ { qty := q1, avg_price := p1 }
    (lookupPos_single (normalizeSymbol sym) { qty := q1, avg_price := p1 })]
  have hcast : ((q1 + q2 : ℤ) : ℚ) = (q1 : ℚ) + (q2 : ℚ) := by push_cast; ring
  rw [hcast]

theorem C3_witness :
    lookupPos
      ((buy (fun _ => some 20)
          ((buy (fun _ => some 10)
              { balance := 1000, positions := [], log := [] } "AAPL" 1 "auto").1)
          "AAPL" 3 "auto").1).positions (normalizeSymbol "AAPL") =
      some { qty := (1 : ℤ) + 3,
             avg_price :=
               (((1 : ℤ) : ℚ) * 10 + ((3 : ℤ) : ℚ) * 20) /
                 (((1 : ℤ) : ℚ) + ((3 : ℤ) : ℚ)) } :=
  C3_weighted_average 1000 10 20 1 3 "AAPL" (by decide) (by decide)
    (by push_cast; norm_num [eps]) (by push_cast; norm_num [eps])

end StockPortfolio
